import Mathlib

/-!
Shallow embedding of `src/image_to_voxel.py` (class `ImageToVoxelConverter`).

Modelling conventions:
* 8-bit channel values are `Nat` with explicit `≤ 255` validity hypotheses.
* The outputs of the external OpenCV image-sampling calls (`cv2.resize`,
  `cv2.cvtColor` to gray/HSV, `cv2.Canny` + `cv2.distanceTransform`) are
  abstracted into a `Sampler`: a bundle of deterministic per-resolution
  channel grids.  The strategies read those grids exactly as the Python
  code reads the arrays returned by those calls.
* Dense numpy arrays `np.zeros((R,R,H))` are modelled as total functions on
  `Nat` indices (default `false` / zero colour) together with the declared
  shape; the per-cell value is the value the Python loops leave in the cell.
* Python `float` arithmetic is modelled exactly over `ℚ`; `astype(int)` /
  `astype(np.uint8)` on a non-negative value is floor (C-style truncation
  toward zero).
-/

namespace ImageToVoxel

/-- An RGB triple, 8 bits per channel (`Nat` with a `≤ 255` validity bound). -/
structure RGB where
  r : Nat
  g : Nat
  b : Nat
  deriving DecidableEq, Repr

/-- The zero colour, the content of a freshly `np.zeros`-initialised colour cell. -/
def RGB.zero : RGB := ⟨0, 0, 0⟩

/-- All channels of an RGB value are 8-bit. -/
def RGB.Valid (c : RGB) : Prop := c.r ≤ 255 ∧ c.g ≤ 255 ∧ c.b ≤ 255

instance (c : RGB) : Decidable c.Valid := by
  unfold RGB.Valid; infer_instance

/-- A pixel of the OpenCV HSV image (`cv2.COLOR_RGB2HSV` on `uint8`):
hue in `[0,179]`, saturation and value in `[0,255]`. -/
structure HSV where
  h : Nat
  s : Nat
  v : Nat
  deriving DecidableEq, Repr

/-- The deterministic outputs of the external sampling calls on one source
image, indexed by the target square resolution: `resizedAt R y x` is
`cv2.resize(image,(R,R))[y,x]`, `grayAt R y x` the grayscale of that sample,
`hsvAt R y x` its HSV conversion, and `distAt R y x` the value of
`cv2.distanceTransform(255 - cv2.Canny(gray,50,150), DIST_L2, 5)[y,x]`. -/
structure Sampler where
  resizedAt : Nat → Nat → Nat → RGB
  grayAt : Nat → Nat → Nat → Nat
  hsvAt : Nat → Nat → Nat → HSV
  distAt : Nat → Nat → Nat → ℚ

/-- Validity of the sampler data at resolution `Rn`, exactly what the `uint8`
dtypes and the distance transform guarantee in the Python code: 8-bit
channels, half-scale hue, non-negative distances. -/
def Sampler.Valid (smp : Sampler) (Rn : Nat) : Prop :=
  ∀ y, y < Rn → ∀ x, x < Rn →
    (smp.resizedAt Rn y x).Valid ∧
    smp.grayAt Rn y x ≤ 255 ∧
    (smp.hsvAt Rn y x).h ≤ 179 ∧
    (smp.hsvAt Rn y x).s ≤ 255 ∧
    (smp.hsvAt Rn y x).v ≤ 255 ∧
    0 ≤ smp.distAt Rn y x

instance (smp : Sampler) (Rn : Nat) : Decidable (smp.Valid Rn) := by
  unfold Sampler.Valid; infer_instance

/-! ## Dense grids, coordinates and counting -/

/-- A dense boolean occupancy grid (`np.zeros((a,b,c), dtype=bool)` plus the
writes of a strategy loop), as a total function with default `false`. -/
abbrev OccGrid := Nat → Nat → Nat → Bool

/-- A dense colour grid (`np.zeros((a,b,c,3), dtype=np.uint8)` plus writes). -/
abbrev ColGrid := Nat → Nat → Nat → RGB

/-- All coordinates of a grid of shape `(a,b,c)` in C (row-major) order:
`x` outermost, then `y`, then `z` — the order `np.where` enumerates. -/
def allCoords (shape : Nat × Nat × Nat) : List (Nat × Nat × Nat) :=
  (List.range shape.1).flatMap fun x =>
    (List.range shape.2.1).flatMap fun y =>
      (List.range shape.2.2).map fun z => (x, y, z)

/-- The flattened (row-major) index of a coordinate in a grid of the given
shape. -/
def flatIdx (shape : Nat × Nat × Nat) (p : Nat × Nat × Nat) : Nat :=
  (p.1 * shape.2.1 + p.2.1) * shape.2.2 + p.2.2

/-- `np.sum(voxels)` on a boolean array: the number of `true` cells. -/
def countOccupied (v : OccGrid) (shape : Nat × Nat × Nat) : Nat :=
  ((allCoords shape).filter fun p => v p.1 p.2.1 p.2.2).length

/-! ## Height strategy (`_height_based_voxels`) -/

/-- `heights[y,x] = int((gray[y,x]/255.0) * max_height)` — exact floor,
`gray * H / 255` in `Nat`. -/
def heightsMap (smp : Sampler) (Rn maxHeight : Nat) (y x : Nat) : Nat :=
  smp.grayAt Rn y x * maxHeight / 255

/-- Occupancy written by the height loops: cell `(x,y,z)` was set iff the
loop indices reach it, i.e. `x,y < R` and `z < heights[y,x]`. -/
def height_voxels (smp : Sampler) (Rn maxHeight : Nat) : OccGrid :=
  fun x y z => decide (x < Rn ∧ y < Rn ∧ z < heightsMap smp Rn maxHeight y x)

/-- Colours written by the height loops: `colors[x,y,z] = resized[y,x]` at
every written cell, zero elsewhere. -/
def height_colors (smp : Sampler) (Rn maxHeight : Nat) : ColGrid :=
  fun x y z =>
    if x < Rn ∧ y < Rn ∧ z < heightsMap smp Rn maxHeight y x then
      smp.resizedAt Rn y x
    else RGB.zero

/-! ## Hue-layer strategy (`_color_layered_voxels`) -/

/-- `hue_layer = min(int((pixel_hsv[0]/180.0) * layers), layers - 1)` —
exact floor, then the explicit clamp. -/
def hueLayerOf (smp : Sampler) (Rn layers : Nat) (y x : Nat) : Nat :=
  min ((smp.hsvAt Rn y x).h * layers / 180) (layers - 1)

/-- The saturation/value gate `pixel_hsv[1] > 30 and pixel_hsv[2] > 30`. -/
def colorGate (smp : Sampler) (Rn : Nat) (y x : Nat) : Prop :=
  30 < (smp.hsvAt Rn y x).s ∧ 30 < (smp.hsvAt Rn y x).v

instance (smp : Sampler) (Rn y x : Nat) : Decidable (colorGate smp Rn y x) := by
  unfold colorGate; infer_instance

/-- Occupancy written by the hue-layer loops: cell `(x,y,z)` is set iff the
pixel passes the gate and `z` is its (clamped) hue layer. -/
def color_voxels (smp : Sampler) (Rn layers : Nat) : OccGrid :=
  fun x y z =>
    decide (x < Rn ∧ y < Rn ∧ colorGate smp Rn y x ∧ z = hueLayerOf smp Rn layers y x)

/-- Colours written by the hue-layer loops: `pixel_rgb = resized[y,x]` at the
single written cell of a gated column, zero elsewhere. -/
def color_colors (smp : Sampler) (Rn layers : Nat) : ColGrid :=
  fun x y z =>
    if x < Rn ∧ y < Rn ∧ colorGate smp Rn y x ∧ z = hueLayerOf smp Rn layers y x then
      smp.resizedAt Rn y x
    else RGB.zero

/-! ## Structure-depth strategy (`_structure_based_voxels`) -/

/-- `max_dist = np.max(dist_transform)`: the fold of `max` over all cells of
the distance field (base `0`; the field is non-negative). -/
def maxDist (smp : Sampler) (Rn : Nat) : ℚ :=
  ((allCoords (Rn, Rn, 1)).map fun p => smp.distAt Rn p.1 p.2.1).foldr max 0

/-- `depth_map = (dist_transform / max_dist * (depth_levels - 1)).astype(int)`
when `max_dist > 0`, else the all-zero map.  `astype(int)` on the
non-negative quotient is floor. -/
def depthMap (smp : Sampler) (Rn depthLevels : Nat) (y x : Nat) : Nat :=
  if 0 < maxDist smp Rn then
    (⌊smp.distAt Rn y x / maxDist smp Rn * ((depthLevels - 1 : Nat) : ℚ)⌋).toNat
  else 0

/-- `color_intensity = 1.0 - (z / max(depth_levels, 1)) * 0.5` over `ℚ`. -/
def colorIntensity (depthLevels z : Nat) : ℚ :=
  1 - ((z : ℚ) / ((max depthLevels 1 : Nat) : ℚ)) * (1/2)

/-- `(pixel_color * color_intensity).astype(np.uint8)` per channel: C-style
truncation toward zero of the non-negative product, i.e. floor. -/
def darken (c : RGB) (i : ℚ) : RGB :=
  ⟨(⌊(c.r : ℚ) * i⌋).toNat, (⌊(c.g : ℚ) * i⌋).toNat, (⌊(c.b : ℚ) * i⌋).toNat⟩

/-- Occupancy written by the structure loops: `for z in range(max_depth + 1)`,
i.e. cell `(x,y,z)` is set iff `x,y < R` and `z ≤ depth_map[y,x]`. -/
def structure_voxels (smp : Sampler) (Rn depthLevels : Nat) : OccGrid :=
  fun x y z => decide (x < Rn ∧ y < Rn ∧ z ≤ depthMap smp Rn depthLevels y x)

/-- Colours written by the structure loops: the darkened base pixel colour at
every written cell, zero elsewhere. -/
def structure_colors (smp : Sampler) (Rn depthLevels : Nat) : ColGrid :=
  fun x y z =>
    if x < Rn ∧ y < Rn ∧ z ≤ depthMap smp Rn depthLevels y x then
      darken (smp.resizedAt Rn y x) (colorIntensity depthLevels z)
    else RGB.zero

/-! ## Errors, strategy entry points and the orchestrator (`convert_image`) -/

/-- The failures the module can raise, named after the spec's taxonomy.
`imageNotFound` is `FileNotFoundError`; `invalidResolution` the failure of
`cv2.resize` on a non-positive target size; `unboundLocal` Python's
`UnboundLocalError` when `np.sum(voxels)` reads the never-assigned `voxels`
after an unrecognised method string; `unknownMethod` is the spec's designed
selector error (never produced by the code). -/
inductive Err where
  | imageNotFound
  | invalidResolution
  | unknownMethod
  | unboundLocal
  deriving DecidableEq, Repr

/-- The pair a strategy returns: its dense occupancy and colour arrays, with
the shape the `np.zeros` allocations declare. -/
structure VoxelData where
  shape : Nat × Nat × Nat
  occ : OccGrid
  col : ColGrid

/-- `_height_based_voxels(image, voxel_resolution, max_height)`.
Modelled from the spec: `cv2.resize` to a `voxel_resolution × voxel_resolution`
target (its C++ body is outside this repository) fails when the requested
resolution is non-positive — the spec's `InvalidResolution` (§4.1/§7);
otherwise the resized sample is `Sampler.resizedAt`. -/
def _height_based_voxels (smp : Sampler) (voxel_resolution : Int) (max_height : Nat) :
    Except Err VoxelData :=
  if voxel_resolution ≤ 0 then .error .invalidResolution
  else
    let Rn := voxel_resolution.toNat
    .ok ⟨(Rn, Rn, max_height), height_voxels smp Rn max_height, height_colors smp Rn max_height⟩

/-- `_color_layered_voxels(image, voxel_resolution, layers)`; the resize
failure is modelled as in `_height_based_voxels`. -/
def _color_layered_voxels (smp : Sampler) (voxel_resolution : Int) (layers : Nat) :
    Except Err VoxelData :=
  if voxel_resolution ≤ 0 then .error .invalidResolution
  else
    let Rn := voxel_resolution.toNat
    .ok ⟨(Rn, Rn, layers), color_voxels smp Rn layers, color_colors smp Rn layers⟩

/-- `_structure_based_voxels(image, voxel_resolution, depth_levels)`; the
resize failure is modelled as in `_height_based_voxels`. -/
def _structure_based_voxels (smp : Sampler) (voxel_resolution : Int) (depth_levels : Nat) :
    Except Err VoxelData :=
  if voxel_resolution ≤ 0 then .error .invalidResolution
  else
    let Rn := voxel_resolution.toNat
    .ok ⟨(Rn, Rn, depth_levels), structure_voxels smp Rn depth_levels,
      structure_colors smp Rn depth_levels⟩

/-- The `**kwargs` of `convert_image`: each strategy parameter is optional and
falls back to the per-strategy default (`kwargs.get(...)`). -/
structure Kwargs where
  voxel_resolution : Option Int
  max_height : Option Nat
  layers : Option Nat
  depth_levels : Option Nat

/-- `kwargs` with nothing supplied. -/
def Kwargs.none : Kwargs := ⟨Option.none, Option.none, Option.none, Option.none⟩

/-- One entry of the `results` dict: voxels, colours, `np.sum(voxels)` and the
method tag. -/
structure StrategyResult where
  voxels : OccGrid
  colors : ColGrid
  shape : Nat × Nat × Nat
  count : Nat
  method : String

/-- The body of one iteration of `convert_image`'s dispatch loop: run the
strategy selected by `m` (with `kwargs` defaults), then compute
`occupied_count = np.sum(voxels)` and build the result entry.  When `m`
matches no branch, `voxels` is never assigned and `np.sum(voxels)` raises
`UnboundLocalError`. -/
def runMethod (smp : Sampler) (kw : Kwargs) (m : String) : Except Err StrategyResult :=
  let vd : Except Err VoxelData :=
    if m = "height" then
      _height_based_voxels smp (kw.voxel_resolution.getD 64) (kw.max_height.getD 32)
    else if m = "color" then
      _color_layered_voxels smp (kw.voxel_resolution.getD 48) (kw.layers.getD 16)
    else if m = "structure" then
      _structure_based_voxels smp (kw.voxel_resolution.getD 56) (kw.depth_levels.getD 24)
    else .error .unboundLocal
  match vd with
  | .error e => .error e
  | .ok d => .ok ⟨d.occ, d.col, d.shape, countOccupied d.occ d.shape, m⟩

/-- `convert_image(image_path, method, **kwargs)`: the existence check and
image load come first (`imageExists` abstracts `os.path.exists`/`cv2.imread`),
then `'all'` expands to the three methods in order, and each is dispatched by
`runMethod`; the results dict is the association list of `(m, result)`. -/
def convert_image (smp : Sampler) (imageExists : Bool) (method : String) (kw : Kwargs) :
    Except Err (List (String × StrategyResult)) :=
  if !imageExists then .error .imageNotFound
  else
    let methods_to_run := if method = "all" then ["height", "color", "structure"] else [method]
    methods_to_run.mapM fun m => do
      let r ← runMethod smp kw m
      pure (m, r)

/-! ## Volume encoder (`save_voxels`, `.npz` branch) -/

/-- The sparse payload `np.savez_compressed` receives: `positions`
(`np.column_stack(np.where(voxels))`), `colors` (`colors[occupied]`), the
grid shape and the method tag. -/
structure SparsePayload where
  positions : List (Nat × Nat × Nat)
  colors : List RGB
  grid_shape : Nat × Nat × Nat
  method : String
  deriving Repr

/-- `np.where(voxels)` in C order: the occupied coordinates, ascending in
flattened index. -/
def occupiedCoords (v : OccGrid) (shape : Nat × Nat × Nat) : List (Nat × Nat × Nat) :=
  (allCoords shape).filter fun p => v p.1 p.2.1 p.2.2

/-- The pure encoding step of `save_voxels` (the `.npz` branch): positions
from `np.where`, the parallel colours by fancy indexing, the declared shape
and method. -/
def save_voxels (res : StrategyResult) : SparsePayload :=
  let occ := occupiedCoords res.voxels res.shape
  ⟨occ, occ.map fun p => res.colors p.1 p.2.1 p.2.2, res.shape, res.method⟩

/-! ## Concrete instances used to exercise the theorems -/

/-- A concrete sampler: a uniform white sample whose grayscale reads 128,
with hue 90, saturation 200, value 201 and a constant distance field 1. -/
def wSampler : Sampler :=
  ⟨fun _ _ _ => ⟨255, 255, 255⟩, fun _ _ _ => 128, fun _ _ _ => ⟨90, 200, 201⟩,
    fun _ _ _ => 1⟩

/-- A concrete occupancy grid with a single occupied cell `(0,0,1)`. -/
def wGrid : OccGrid := fun x y z => decide (x = 0 ∧ y = 0 ∧ z = 1)

/-- A concrete strategy result over `wGrid` with shape `(1,1,2)`. -/
def wRes : StrategyResult :=
  ⟨wGrid, fun _ _ _ => ⟨10, 20, 30⟩, (1, 1, 2), countOccupied wGrid (1, 1, 2), "height"⟩

/-- `round(q)` clamped to `[0,255]`, the per-channel colour the spec's words
describe for the structure strategy (`round`, then clamp). -/
def roundClamp255 (q : ℚ) : Nat := min (round q).toNat 255

/-- The voxel colour the spec's words describe for the structure strategy:
per-channel `round(pixel_color * intensity)` clamped to `[0,255]`. -/
def specRoundDarken (c : RGB) (i : ℚ) : RGB :=
  ⟨roundClamp255 ((c.r : ℚ) * i), roundClamp255 ((c.g : ℚ) * i),
    roundClamp255 ((c.b : ℚ) * i)⟩

/-! ## Helper lemmas -/

theorem mem_allCoords (sh p : Nat × Nat × Nat) :
    p ∈ allCoords sh ↔ p.1 < sh.1 ∧ p.2.1 < sh.2.1 ∧ p.2.2 < sh.2.2 := by
  obtain ⟨x, y, z⟩ := p
  simp only [allCoords, List.mem_flatMap, List.mem_map, List.mem_range]
  constructor
  · rintro ⟨a, ha, b, hb, c, hc, h⟩
    obtain ⟨rfl, rfl, rfl⟩ := Prod.mk.injEq .. ▸ h
    · exact ⟨ha, hb, hc⟩
  · rintro ⟨hx, hy, hz⟩
    exact ⟨x, hx, y, hy, z, hz, rfl⟩

/-- Strict growth of the flattened index along the middle enumeration axis,
given an in-range `z` component on the left. -/
theorem flatIdx_lt_of_lt_mid {c x y1 z1 y2 z2 : Nat}
    (hz1 : z1 < c) (hy : y1 < y2) :
    (x + y1) * c + z1 < (x + y2) * c + z2 := by
  calc (x + y1) * c + z1 < (x + y1) * c + c := by omega
    _ = (x + y1 + 1) * c := by ring
    _ ≤ (x + y2) * c := Nat.mul_le_mul_right c (by omega)
    _ ≤ (x + y2) * c + z2 := Nat.le_add_right _ _

/-- Strict growth of the flattened index along the outer enumeration axis,
given in-range `y`/`z` components on the left. -/
theorem flatIdx_lt_of_lt_outer {b c x1 y1 z1 x2 y2 z2 : Nat}
    (hy1 : y1 < b) (hz1 : z1 < c) (hx : x1 < x2) :
    (x1 * b + y1) * c + z1 < (x2 * b + y2) * c + z2 := by
  have hub : x1 * b + y1 < x2 * b + y2 :=
    calc x1 * b + y1 < x1 * b + b := by omega
      _ = (x1 + 1) * b := by ring
      _ ≤ x2 * b := Nat.mul_le_mul_right b hx
      _ ≤ x2 * b + y2 := Nat.le_add_right _ _
  calc (x1 * b + y1) * c + z1 < (x1 * b + y1) * c + c := by omega
    _ = (x1 * b + y1 + 1) * c := by ring
    _ ≤ (x2 * b + y2) * c := Nat.mul_le_mul_right c hub
    _ ≤ (x2 * b + y2) * c + z2 := Nat.le_add_right _ _

theorem pairwise_flatIdx_allCoords (sh : Nat × Nat × Nat) :
    (allCoords sh).Pairwise fun p q => flatIdx sh p < flatIdx sh q := by
  obtain ⟨a, b, c⟩ := sh
  unfold allCoords
  rw [List.pairwise_flatMap]
  refine ⟨fun x _ => ?_, ?_⟩
  · rw [List.pairwise_flatMap]
    refine ⟨fun y _ => ?_, ?_⟩
    · rw [List.pairwise_map]
      refine (List.pairwise_lt_range c).imp ?_
      intro z1 z2 hz
      simp only [flatIdx]
      exact Nat.add_lt_add_left hz _
    · refine (List.pairwise_lt_range b).imp ?_
      intro y1 y2 hy p hp q hq
      simp only [List.mem_map, List.mem_range] at hp hq
      obtain ⟨z1, hz1, rfl⟩ := hp
      obtain ⟨z2, _, rfl⟩ := hq
      simp only [flatIdx]
      exact flatIdx_lt_of_lt_mid hz1 hy
  · refine (List.pairwise_lt_range a).imp ?_
    intro x1 x2 hx p hp q hq
    simp only [List.mem_flatMap, List.mem_map, List.mem_range] at hp hq
    obtain ⟨y1, hy1, z1, hz1, rfl⟩ := hp
    obtain ⟨y2, _, z2, _, rfl⟩ := hq
    simp only [flatIdx]
    exact flatIdx_lt_of_lt_outer hy1 hz1 hx

theorem nodup_allCoords (sh : Nat × Nat × Nat) : (allCoords sh).Nodup :=
  (pairwise_flatIdx_allCoords sh).imp fun h heq => by simp [heq] at h

theorem mem_occupiedCoords (v : OccGrid) (sh : Nat × Nat × Nat) (p : Nat × Nat × Nat) :
    p ∈ occupiedCoords v sh ↔
      (p.1 < sh.1 ∧ p.2.1 < sh.2.1 ∧ p.2.2 < sh.2.2) ∧ v p.1 p.2.1 p.2.2 = true := by
  rw [occupiedCoords, List.mem_filter, mem_allCoords]

theorem pairwise_occupiedCoords (v : OccGrid) (sh : Nat × Nat × Nat) :
    (occupiedCoords v sh).Pairwise fun p q => flatIdx sh p < flatIdx sh q :=
  List.Pairwise.sublist (List.filter_sublist _) (pairwise_flatIdx_allCoords sh)

theorem nodup_occupiedCoords (v : OccGrid) (sh : Nat × Nat × Nat) :
    (occupiedCoords v sh).Nodup :=
  (nodup_allCoords sh).sublist (List.filter_sublist _)

/-- Counting the `z < h` cells of a column that exist in a depth-`n` array. -/
theorem countP_range_lt (h n : Nat) :
    ((List.range n).countP fun z => decide (z < h)) = min h n := by
  induction n with
  | zero => simp
  | succ n ih =>
    rw [List.range_succ, List.countP_append, ih]
    by_cases hn : n < h <;> simp [List.countP_cons, hn] <;> omega

/-- Every element of a list of rationals is bounded by the `max`-fold that
models `np.max`. -/
theorem le_foldr_max (l : List ℚ) (a : ℚ) (h : a ∈ l) : a ≤ l.foldr max 0 := by
  induction l with
  | nil => cases h
  | cons b t ih =>
    rcases List.mem_cons.mp h with rfl | h2
    · exact le_max_left _ _
    · exact (ih h2).trans (le_max_right _ _)

/-- Every in-range value of the distance field is at most `np.max` of it. -/
theorem distAt_le_maxDist (smp : Sampler) (Rn : Nat) {y x : Nat}
    (hy : y < Rn) (hx : x < Rn) : smp.distAt Rn y x ≤ maxDist smp Rn := by
  refine le_foldr_max _ _ ?_
  exact List.mem_map.mpr ⟨(y, x, 0), (mem_allCoords _ _).mpr ⟨hy, hx, Nat.one_pos⟩, rfl⟩

/-- The height value never exceeds `max_height` on 8-bit grayscale input. -/
theorem heightsMap_le (smp : Sampler) (Rn maxHeight y x : Nat)
    (hg : smp.grayAt Rn y x ≤ 255) : heightsMap smp Rn maxHeight y x ≤ maxHeight := by
  unfold heightsMap
  calc smp.grayAt Rn y x * maxHeight / 255 ≤ 255 * maxHeight / 255 :=
        Nat.div_le_div_right (Nat.mul_le_mul_right _ hg)
    _ = maxHeight := by omega

/-- The clamped hue layer is at most `layers - 1`. -/
theorem hueLayerOf_le (smp : Sampler) (Rn layers y x : Nat) :
    hueLayerOf smp Rn layers y x ≤ layers - 1 :=
  min_le_right _ _

/-- The depth value never exceeds `depth_levels - 1` on a valid (non-negative)
distance field. -/
theorem depthMap_le (smp : Sampler) (Rn depthLevels : Nat) {y x : Nat}
    (hy : y < Rn) (hx : x < Rn) :
    depthMap smp Rn depthLevels y x ≤ depthLevels - 1 := by
  unfold depthMap
  split
  case isFalse => exact Nat.zero_le _
  case isTrue hpos =>
    have hd : smp.distAt Rn y x ≤ maxDist smp Rn := distAt_le_maxDist smp Rn hy hx
    have hq : smp.distAt Rn y x / maxDist smp Rn ≤ 1 := (div_le_one hpos).mpr hd
    have hnn : (0 : ℚ) ≤ ((depthLevels - 1 : Nat) : ℚ) := Nat.cast_nonneg _
    have hmul : smp.distAt Rn y x / maxDist smp Rn * ((depthLevels - 1 : Nat) : ℚ) ≤
        ((depthLevels - 1 : Nat) : ℚ) := mul_le_of_le_one_left hnn hq
    have hfl : ⌊smp.distAt Rn y x / maxDist smp Rn * ((depthLevels - 1 : Nat) : ℚ)⌋ ≤
        ((depthLevels - 1 : Nat) : ℤ) := by
      have := Int.floor_le_floor hmul
      rwa [Int.floor_natCast] at this
    omega

/-- The height value is the exact floor the spec states. -/
theorem heightsMap_eq_floor (smp : Sampler) (Rn maxHeight y x : Nat) :
    heightsMap smp Rn maxHeight y x =
      ⌊(smp.grayAt Rn y x : ℚ) / 255 * maxHeight⌋₊ := by
  have h : (smp.grayAt Rn y x : ℚ) / 255 * maxHeight =
      ((smp.grayAt Rn y x * maxHeight : Nat) : ℚ) / ((255 : Nat) : ℚ) := by
    push_cast; ring
  rw [heightsMap, h, Nat.floor_div_nat, Nat.floor_natCast]

/-- The hue layer is the exact clamped floor the spec states. -/
theorem hueLayerOf_eq_floor (smp : Sampler) (Rn layers y x : Nat) :
    hueLayerOf smp Rn layers y x =
      min ⌊((smp.hsvAt Rn y x).h : ℚ) / 180 * layers⌋₊ (layers - 1) := by
  have h : ((smp.hsvAt Rn y x).h : ℚ) / 180 * layers =
      (((smp.hsvAt Rn y x).h * layers : Nat) : ℚ) / ((180 : Nat) : ℚ) := by
    push_cast; ring
  rw [hueLayerOf, h, Nat.floor_div_nat, Nat.floor_natCast]

/-- A column of the height grid, restricted to the cells that exist in the
array, contains exactly `heights[y,x]` occupied cells. -/
theorem height_column_count (smp : Sampler) (Rn maxHeight x y : Nat)
    (hx : x < Rn) (hy : y < Rn) (hg : smp.grayAt Rn y x ≤ 255) :
    ((List.range maxHeight).countP fun z => height_voxels smp Rn maxHeight x y z) =
      heightsMap smp Rn maxHeight y x := by
  have hcg : ∀ z ∈ List.range maxHeight,
      (height_voxels smp Rn maxHeight x y z = true ↔
        decide (z < heightsMap smp Rn maxHeight y x) = true) := by
    intro z _
    simp [height_voxels, hx, hy]
  rw [List.countP_congr hcg, countP_range_lt]
  exact Nat.min_eq_left (heightsMap_le smp Rn maxHeight y x hg)

/-! ## The claims -/

/-- Claim C1: for every valid RGB image and positive parameters R and H, the
height strategy returns an occupancy grid of shape `(R,R,H)` in which, for
every column `(x,y)`, the occupied cells are exactly those with
`z < ⌊(gray(x,y)/255) * H⌋`; the number of occupied cells of the column is
that height, a column of height 0 is empty, and every occupied voxel of a
column carries the resized sample's RGB at `(x,y)`. -/
theorem C1_height_strategy (smp : Sampler) (voxel_resolution : Int) (max_height : Nat)
    (hR : 0 < voxel_resolution) (_hH : 0 < max_height)
    (hval : smp.Valid voxel_resolution.toNat) :
    ∃ vd, _height_based_voxels smp voxel_resolution max_height = .ok vd ∧
      vd.shape = (voxel_resolution.toNat, voxel_resolution.toNat, max_height) ∧
      ∀ x, x < voxel_resolution.toNat → ∀ y, y < voxel_resolution.toNat →
        (∀ z, vd.occ x y z = true ↔
            z < ⌊(smp.grayAt voxel_resolution.toNat y x : ℚ) / 255 * max_height⌋₊) ∧
        ((List.range max_height).countP (fun z => vd.occ x y z) =
            ⌊(smp.grayAt voxel_resolution.toNat y x : ℚ) / 255 * max_height⌋₊) ∧
        (⌊(smp.grayAt voxel_resolution.toNat y x : ℚ) / 255 * max_height⌋₊ = 0 →
            ∀ z, vd.occ x y z = false) ∧
        (∀ z, vd.occ x y z = true →
            vd.col x y z = smp.resizedAt voxel_resolution.toNat y x) := by
  refine ⟨⟨(voxel_resolution.toNat, voxel_resolution.toNat, max_height),
      height_voxels smp voxel_resolution.toNat max_height,
      height_colors smp voxel_resolution.toNat max_height⟩, ?_, rfl, ?_⟩
  · rw [_height_based_voxels, if_neg (not_le.mpr hR)]
  intro x hx y hy
  rw [← heightsMap_eq_floor]
  refine ⟨fun z => ?_, ?_, fun h0 z => ?_, fun z hz => ?_⟩
  · simp [height_voxels, hx, hy]
  · exact height_column_count smp _ max_height x y hx hy (hval y hy x hx).2.1
  · simp [height_voxels, hx, hy, h0]
  · have hlt : z < heightsMap smp voxel_resolution.toNat max_height y x := by
      simpa [height_voxels, hx, hy] using hz
    simp [height_colors, hx, hy, hlt]

/-- Witness for C1 at the concrete sampler, resolution 2 and height 8: the
hypotheses hold and the conclusion follows by the theorem. -/
theorem C1_height_strategy_witness :
    (0 < (2 : Int)) ∧ (0 < 8) ∧ wSampler.Valid (Int.toNat 2) ∧
      (∃ vd, _height_based_voxels wSampler 2 8 = .ok vd ∧
        vd.shape = (Int.toNat 2, Int.toNat 2, 8) ∧
        ∀ x, x < Int.toNat 2 → ∀ y, y < Int.toNat 2 →
          (∀ z, vd.occ x y z = true ↔
              z < ⌊(wSampler.grayAt (Int.toNat 2) y x : ℚ) / 255 * 8⌋₊) ∧
          ((List.range 8).countP (fun z => vd.occ x y z) =
              ⌊(wSampler.grayAt (Int.toNat 2) y x : ℚ) / 255 * 8⌋₊) ∧
          (⌊(wSampler.grayAt (Int.toNat 2) y x : ℚ) / 255 * 8⌋₊ = 0 →
              ∀ z, vd.occ x y z = false) ∧
          (∀ z, vd.occ x y z = true →
              vd.col x y z = wSampler.resizedAt (Int.toNat 2) y x)) :=
  ⟨by decide, by decide, by decide,
    C1_height_strategy wSampler 2 8 (by decide) (by decide) (by decide)⟩

/-- Claim C2: in the hue-layer strategy a pixel with saturation ≤ 30 or
value ≤ 30 contributes no occupied voxel to its column; a pixel passing the
gate occupies exactly the voxel `(x, y, hue_layer)` with
`hue_layer = min ⌊hue/180 * L⌋ (L-1)`, coloured with the resized sample's
RGB at `(x,y)`. -/
theorem C2_hue_layer_strategy (smp : Sampler) (voxel_resolution : Int) (layers : Nat)
    (hR : 0 < voxel_resolution) :
    ∃ vd, _color_layered_voxels smp voxel_resolution layers = .ok vd ∧
      ∀ x, x < voxel_resolution.toNat → ∀ y, y < voxel_resolution.toNat →
        (((smp.hsvAt voxel_resolution.toNat y x).s ≤ 30 ∨
            (smp.hsvAt voxel_resolution.toNat y x).v ≤ 30) →
          ∀ z, vd.occ x y z = false) ∧
        ((30 < (smp.hsvAt voxel_resolution.toNat y x).s ∧
            30 < (smp.hsvAt voxel_resolution.toNat y x).v) →
          (∀ z, vd.occ x y z = true ↔
              z = hueLayerOf smp voxel_resolution.toNat layers y x) ∧
          hueLayerOf smp voxel_resolution.toNat layers y x =
            min ⌊((smp.hsvAt voxel_resolution.toNat y x).h : ℚ) / 180 * layers⌋₊
              (layers - 1) ∧
          hueLayerOf smp voxel_resolution.toNat layers y x ≤ layers - 1 ∧
          vd.col x y (hueLayerOf smp voxel_resolution.toNat layers y x) =
            smp.resizedAt voxel_resolution.toNat y x) := by
  refine ⟨⟨(voxel_resolution.toNat, voxel_resolution.toNat, layers),
      color_voxels smp voxel_resolution.toNat layers,
      color_colors smp voxel_resolution.toNat layers⟩, ?_, ?_⟩
  · rw [_color_layered_voxels, if_neg (not_le.mpr hR)]
  intro x hx y hy
  constructor
  · intro hfail z
    refine decide_eq_false ?_
    rintro ⟨-, -, ⟨hs, hv⟩, -⟩
    omega
  · intro hgate
    refine ⟨fun z => ?_, hueLayerOf_eq_floor smp _ layers y x,
      hueLayerOf_le smp _ layers y x, ?_⟩
    · simp [color_voxels, colorGate, hx, hy, hgate.1, hgate.2]
    · simp [color_colors, colorGate, hx, hy, hgate.1, hgate.2]

/-- Witness for C2 at the concrete sampler, resolution 2 and 16 layers. -/
theorem C2_hue_layer_strategy_witness :
    (0 < (2 : Int)) ∧
      (∃ vd, _color_layered_voxels wSampler 2 16 = .ok vd ∧
        ∀ x, x < Int.toNat 2 → ∀ y, y < Int.toNat 2 →
          (((wSampler.hsvAt (Int.toNat 2) y x).s ≤ 30 ∨
              (wSampler.hsvAt (Int.toNat 2) y x).v ≤ 30) →
            ∀ z, vd.occ x y z = false) ∧
          ((30 < (wSampler.hsvAt (Int.toNat 2) y x).s ∧
              30 < (wSampler.hsvAt (Int.toNat 2) y x).v) →
            (∀ z, vd.occ x y z = true ↔
                z = hueLayerOf wSampler (Int.toNat 2) 16 y x) ∧
            hueLayerOf wSampler (Int.toNat 2) 16 y x =
              min ⌊((wSampler.hsvAt (Int.toNat 2) y x).h : ℚ) / 180 * 16⌋₊ (16 - 1) ∧
            hueLayerOf wSampler (Int.toNat 2) 16 y x ≤ 16 - 1 ∧
            vd.col x y (hueLayerOf wSampler (Int.toNat 2) 16 y x) =
              wSampler.resizedAt (Int.toNat 2) y x)) :=
  ⟨by decide, C2_hue_layer_strategy wSampler 2 16 (by decide)⟩

/-- Claim C3: the structure strategy occupies, in every column, exactly the
voxels with `z ≤ depth_map(x,y)` (inclusive), so every column has an
occupied voxel at `z = 0`; and when the maximum distance is 0 the depth map
is all zeros and every column's occupied set is exactly `{0}`. -/
theorem C3_structure_strategy (smp : Sampler) (voxel_resolution : Int) (depth_levels : Nat)
    (hR : 0 < voxel_resolution) (_hD : 0 < depth_levels)
    (_hval : smp.Valid voxel_resolution.toNat) :
    ∃ vd, _structure_based_voxels smp voxel_resolution depth_levels = .ok vd ∧
      (∀ x, x < voxel_resolution.toNat → ∀ y, y < voxel_resolution.toNat →
        (∀ z, vd.occ x y z = true ↔
            z ≤ depthMap smp voxel_resolution.toNat depth_levels y x) ∧
        vd.occ x y 0 = true) ∧
      (maxDist smp voxel_resolution.toNat = 0 →
        ∀ x, x < voxel_resolution.toNat → ∀ y, y < voxel_resolution.toNat →
          depthMap smp voxel_resolution.toNat depth_levels y x = 0 ∧
          (∀ z, vd.occ x y z = true ↔ z = 0)) := by
  refine ⟨⟨(voxel_resolution.toNat, voxel_resolution.toNat, depth_levels),
      structure_voxels smp voxel_resolution.toNat depth_levels,
      structure_colors smp voxel_resolution.toNat depth_levels⟩, ?_, ?_, ?_⟩
  · rw [_structure_based_voxels, if_neg (not_le.mpr hR)]
  · intro x hx y hy
    refine ⟨fun z => ?_, ?_⟩
    · simp [structure_voxels, hx, hy]
    · simp [structure_voxels, hx, hy]
  · intro h0 x hx y hy
    have hdm : depthMap smp voxel_resolution.toNat depth_levels y x = 0 := by
      simp [depthMap, h0]
    refine ⟨hdm, fun z => ?_⟩
    simp [structure_voxels, hx, hy, hdm, Nat.le_zero]

/-- Witness for C3 at the concrete sampler, resolution 1 and 24 depth
levels. -/
theorem C3_structure_strategy_witness :
    (0 < (1 : Int)) ∧ (0 < 24) ∧ wSampler.Valid (Int.toNat 1) ∧
      (∃ vd, _structure_based_voxels wSampler 1 24 = .ok vd ∧
        (∀ x, x < Int.toNat 1 → ∀ y, y < Int.toNat 1 →
          (∀ z, vd.occ x y z = true ↔
              z ≤ depthMap wSampler (Int.toNat 1) 24 y x) ∧
          vd.occ x y 0 = true) ∧
        (maxDist wSampler (Int.toNat 1) = 0 →
          ∀ x, x < Int.toNat 1 → ∀ y, y < Int.toNat 1 →
            depthMap wSampler (Int.toNat 1) 24 y x = 0 ∧
            (∀ z, vd.occ x y z = true ↔ z = 0))) :=
  ⟨by decide, by decide, by decide,
    C3_structure_strategy wSampler 1 24 (by decide) (by decide) (by decide)⟩

/-- Claim C8: each strategy, the orchestrator and the encoder are
deterministic — re-running on identical inputs yields identical occupancy
grids, colour grids, results and sparse payloads (the core is a pure
function of its inputs, with no hidden randomness). -/
theorem C8_determinism (smp : Sampler) (voxel_resolution : Int)
    (max_height layers depth_levels : Nat) (imageExists : Bool) (method : String)
    (kw : Kwargs) :
    _height_based_voxels smp voxel_resolution max_height =
      _height_based_voxels smp voxel_resolution max_height ∧
    _color_layered_voxels smp voxel_resolution layers =
      _color_layered_voxels smp voxel_resolution layers ∧
    _structure_based_voxels smp voxel_resolution depth_levels =
      _structure_based_voxels smp voxel_resolution depth_levels ∧
    convert_image smp imageExists method kw = convert_image smp imageExists method kw ∧
    ∀ res : StrategyResult, save_voxels res = save_voxels res :=
  ⟨rfl, rfl, rfl, rfl, fun _ => rfl⟩

/-- Claim C9 (implicit): in every strategy's output, every cell is either
occupied or carries the zero colour `(0,0,0)` — each strategy
zero-initialises its colour array and writes a colour only at cells it
simultaneously marks occupied. -/
theorem C9_unoccupied_cells_zero (smp : Sampler) (Rn H L D x y z : Nat) :
    (height_voxels smp Rn H x y z = true ∨ height_colors smp Rn H x y z = RGB.zero) ∧
    (color_voxels smp Rn L x y z = true ∨ color_colors smp Rn L x y z = RGB.zero) ∧
    (structure_voxels smp Rn D x y z = true ∨
      structure_colors smp Rn D x y z = RGB.zero) := by
  refine ⟨?_, ?_, ?_⟩
  · by_cases h : x < Rn ∧ y < Rn ∧ z < heightsMap smp Rn H y x
    · exact Or.inl (by simp [height_voxels, h])
    · exact Or.inr (by simp [height_colors, h])
  · by_cases h : x < Rn ∧ y < Rn ∧ colorGate smp Rn y x ∧ z = hueLayerOf smp Rn L y x
    · exact Or.inl (by simp [color_voxels, h])
    · exact Or.inr (by simp [color_colors, h])
  · by_cases h : x < Rn ∧ y < Rn ∧ z ≤ depthMap smp Rn D y x
    · exact Or.inl (by simp [structure_voxels, h])
    · exact Or.inr (by simp [structure_colors, h])

/-- Claim C4: the encoder's coordinate and colour lists both have length
equal to the occupied-voxel count, the coordinates are strictly ascending in
flattened index (hence duplicate-free) and lie within the declared shape,
the declared shape is the source grid's shape, and reconstructing a dense
grid from the payload (occupied exactly at the listed coordinates)
reproduces the original occupancy grid bit-for-bit. -/
theorem C4_volume_encoder (res : StrategyResult)
    (hcount : res.count = countOccupied res.voxels res.shape) :
    (save_voxels res).positions.length = res.count ∧
    (save_voxels res).colors.length = res.count ∧
    (save_voxels res).grid_shape = res.shape ∧
    (save_voxels res).method = res.method ∧
    (save_voxels res).positions.Pairwise
      (fun p q => flatIdx res.shape p < flatIdx res.shape q) ∧
    (save_voxels res).positions.Nodup ∧
    (∀ p ∈ (save_voxels res).positions,
      p.1 < res.shape.1 ∧ p.2.1 < res.shape.2.1 ∧ p.2.2 < res.shape.2.2) ∧
    (∀ x, x < res.shape.1 → ∀ y, y < res.shape.2.1 → ∀ z, z < res.shape.2.2 →
      decide ((x, y, z) ∈ (save_voxels res).positions) = res.voxels x y z) := by
  refine ⟨?_, ?_, rfl, rfl, pairwise_occupiedCoords _ _, nodup_occupiedCoords _ _, ?_, ?_⟩
  · rw [hcount]; rfl
  · rw [save_voxels]
    simp only [List.length_map]
    rw [hcount]; rfl
  · intro p hp
    exact ((mem_occupiedCoords _ _ _).mp hp).1
  · intro x hx y hy z hz
    by_cases hv : res.voxels x y z = true
    · rw [hv]
      exact decide_eq_true ((mem_occupiedCoords _ _ _).mpr ⟨⟨hx, hy, hz⟩, hv⟩)
    · rw [Bool.not_eq_true] at hv
      rw [hv]
      exact decide_eq_false fun hmem => by
        rw [((mem_occupiedCoords _ _ _).mp hmem).2] at hv
        exact Bool.true_eq_false.mp hv

/-- Witness for C4 at the concrete single-voxel strategy result. -/
theorem C4_volume_encoder_witness :
    wRes.count = countOccupied wRes.voxels wRes.shape ∧
      ((save_voxels wRes).positions.length = wRes.count ∧
      (save_voxels wRes).colors.length = wRes.count ∧
      (save_voxels wRes).grid_shape = wRes.shape ∧
      (save_voxels wRes).method = wRes.method ∧
      (save_voxels wRes).positions.Pairwise
        (fun p q => flatIdx wRes.shape p < flatIdx wRes.shape q) ∧
      (save_voxels wRes).positions.Nodup ∧
      (∀ p ∈ (save_voxels wRes).positions,
        p.1 < wRes.shape.1 ∧ p.2.1 < wRes.shape.2.1 ∧ p.2.2 < wRes.shape.2.2) ∧
      (∀ x, x < wRes.shape.1 → ∀ y, y < wRes.shape.2.1 → ∀ z, z < wRes.shape.2.2 →
        decide ((x, y, z) ∈ (save_voxels wRes).positions) = wRes.voxels x y z)) :=
  ⟨rfl, C4_volume_encoder wRes rfl⟩

/-- Claim C5 (as the code behaves): for a method selector outside the four
recognised values, `convert_image` does not raise a designed `UnknownMethod`
before any computation — the existence check and image load run first (a
missing image wins with `ImageNotFound` even for a bogus selector), and with
the image loaded the dispatch loop leaves `voxels` unassigned and crashes
with `UnboundLocalError` at `np.sum(voxels)`. -/
theorem C5_unknown_method (smp : Sampler) (kw : Kwargs) (m : String)
    (hm : m ∉ ["height", "color", "structure", "all"]) :
    convert_image smp true m kw = .error .unboundLocal ∧
    convert_image smp false m kw = .error .imageNotFound ∧
    Err.unboundLocal ≠ Err.unknownMethod := by
  simp only [List.mem_cons, List.not_mem_nil, or_false, not_or] at hm
  obtain ⟨h1, h2, h3, h4⟩ := hm
  refine ⟨?_, rfl, by decide⟩
  rw [convert_image]
  simp [h1, h2, h3, h4, runMethod, List.mapM, List.mapM.loop]

/-- Witness for C5 at the selector `"voxel"`. -/
theorem C5_unknown_method_witness :
    "voxel" ∉ ["height", "color", "structure", "all"] ∧
      (convert_image wSampler true "voxel" Kwargs.none = .error .unboundLocal ∧
      convert_image wSampler false "voxel" Kwargs.none = .error .imageNotFound ∧
      Err.unboundLocal ≠ Err.unknownMethod) :=
  ⟨by decide, C5_unknown_method wSampler Kwargs.none "voxel" (by decide)⟩

/-- Claim C6: a non-positive target resolution makes every strategy fail with
`InvalidResolution` at its first step (the resize), while resolution 1 is
valid and yields a single-column grid of shape `(1,1,depth)`. -/
theorem C6_invalid_resolution (smp : Sampler) (voxel_resolution : Int)
    (max_height layers depth_levels : Nat) (hR : voxel_resolution ≤ 0) :
    _height_based_voxels smp voxel_resolution max_height = .error .invalidResolution ∧
    _color_layered_voxels smp voxel_resolution layers = .error .invalidResolution ∧
    _structure_based_voxels smp voxel_resolution depth_levels =
      .error .invalidResolution ∧
    (∃ vd, _height_based_voxels smp 1 max_height = .ok vd ∧
      vd.shape = (1, 1, max_height)) ∧
    (∃ vd, _color_layered_voxels smp 1 layers = .ok vd ∧ vd.shape = (1, 1, layers)) ∧
    (∃ vd, _structure_based_voxels smp 1 depth_levels = .ok vd ∧
      vd.shape = (1, 1, depth_levels)) := by
  refine ⟨?_, ?_, ?_, ⟨_, rfl, rfl⟩, ⟨_, rfl, rfl⟩, ⟨_, rfl, rfl⟩⟩
  · rw [_height_based_voxels, if_pos hR]
  · rw [_color_layered_voxels, if_pos hR]
  · rw [_structure_based_voxels, if_pos hR]

/-- Witness for C6 at resolution `-3`. -/
theorem C6_invalid_resolution_witness :
    ((-3 : Int) ≤ 0) ∧
      (_height_based_voxels wSampler (-3) 32 = .error .invalidResolution ∧
      _color_layered_voxels wSampler (-3) 16 = .error .invalidResolution ∧
      _structure_based_voxels wSampler (-3) 24 = .error .invalidResolution ∧
      (∃ vd, _height_based_voxels wSampler 1 32 = .ok vd ∧ vd.shape = (1, 1, 32)) ∧
      (∃ vd, _color_layered_voxels wSampler 1 16 = .ok vd ∧ vd.shape = (1, 1, 16)) ∧
      (∃ vd, _structure_based_voxels wSampler 1 24 = .ok vd ∧
        vd.shape = (1, 1, 24))) :=
  ⟨by decide, C6_invalid_resolution wSampler (-3) 32 16 24 (by decide)⟩

/-- The darkening intensity never exceeds 1. -/
theorem colorIntensity_le_one (depthLevels z : Nat) : colorIntensity depthLevels z ≤ 1 := by
  unfold colorIntensity
  have h1 : (0 : ℚ) ≤ (z : ℚ) / ((max depthLevels 1 : Nat) : ℚ) * (1/2) := by positivity
  linarith

/-- A truncated product of an 8-bit channel with an intensity ≤ 1 stays
8-bit. -/
theorem darken_channel_le (c : Nat) (hc : c ≤ 255) (i : ℚ) (hi : i ≤ 1) :
    (⌊(c : ℚ) * i⌋).toNat ≤ 255 := by
  have hcc : (0 : ℚ) ≤ (c : ℚ) := Nat.cast_nonneg c
  have hle : (c : ℚ) * i ≤ (c : ℚ) := mul_le_of_le_one_right hcc hi
  have h2 : ⌊(c : ℚ) * i⌋ ≤ ⌊(c : ℚ)⌋ := Int.floor_le_floor hle
  rw [Int.floor_natCast] at h2
  omega

/-- Claim C7, amended: the structure strategy's stored colour of an occupied
voxel is the C-cast truncation (floor), not the rounding, of
`pixel_color * (1 - (z/max(D,1)) * 0.5)` per channel; on valid 8-bit input
the truncated channels already lie in `[0,255]`, so no clamping occurs. -/
theorem C7_structure_color_truncation (smp : Sampler) (Rn depth_levels x y z : Nat)
    (hocc : structure_voxels smp Rn depth_levels x y z = true)
    (hc : (smp.resizedAt Rn y x).Valid) :
    structure_colors smp Rn depth_levels x y z =
      ⟨(⌊((smp.resizedAt Rn y x).r : ℚ) *
          (1 - ((z : ℚ) / ((max depth_levels 1 : Nat) : ℚ)) * (1/2))⌋).toNat,
        (⌊((smp.resizedAt Rn y x).g : ℚ) *
          (1 - ((z : ℚ) / ((max depth_levels 1 : Nat) : ℚ)) * (1/2))⌋).toNat,
        (⌊((smp.resizedAt Rn y x).b : ℚ) *
          (1 - ((z : ℚ) / ((max depth_levels 1 : Nat) : ℚ)) * (1/2))⌋).toNat⟩ ∧
    (structure_colors smp Rn depth_levels x y z).r ≤ 255 ∧
    (structure_colors smp Rn depth_levels x y z).g ≤ 255 ∧
    (structure_colors smp Rn depth_levels x y z).b ≤ 255 := by
  have hcond : x < Rn ∧ y < Rn ∧ z ≤ depthMap smp Rn depth_levels y x :=
    of_decide_eq_true hocc
  have hcol : structure_colors smp Rn depth_levels x y z =
      darken (smp.resizedAt Rn y x) (colorIntensity depth_levels z) := by
    rw [structure_colors, if_pos hcond]
  have hint : colorIntensity depth_levels z ≤ 1 := colorIntensity_le_one depth_levels z
  obtain ⟨hr, hg, hb⟩ := hc
  refine ⟨hcol, ?_, ?_, ?_⟩ <;> rw [hcol] <;>
    first
      | exact darken_channel_le _ hr _ hint
      | exact darken_channel_le _ hg _ hint
      | exact darken_channel_le _ hb _ hint

/-- Witness for C7's amended statement at the concrete sampler, `z = 0`. -/
theorem C7_structure_color_truncation_witness :
    structure_voxels wSampler 1 24 0 0 0 = true ∧
      (wSampler.resizedAt 1 0 0).Valid ∧
      (structure_colors wSampler 1 24 0 0 0 =
        ⟨(⌊((wSampler.resizedAt 1 0 0).r : ℚ) *
            (1 - ((0 : ℚ) / ((max 24 1 : Nat) : ℚ)) * (1/2))⌋).toNat,
          (⌊((wSampler.resizedAt 1 0 0).g : ℚ) *
            (1 - ((0 : ℚ) / ((max 24 1 : Nat) : ℚ)) * (1/2))⌋).toNat,
          (⌊((wSampler.resizedAt 1 0 0).b : ℚ) *
            (1 - ((0 : ℚ) / ((max 24 1 : Nat) : ℚ)) * (1/2))⌋).toNat⟩ ∧
      (structure_colors wSampler 1 24 0 0 0).r ≤ 255 ∧
      (structure_colors wSampler 1 24 0 0 0).g ≤ 255 ∧
      (structure_colors wSampler 1 24 0 0 0).b ≤ 255) :=
  ⟨by simp [structure_voxels], by decide,
    C7_structure_color_truncation wSampler 1 24 0 0 0 (by simp [structure_voxels])
      (by decide)⟩

/-- Counterexample to C7 as stated: at the concrete all-white sampler with a
constant distance field, resolution 1 and 24 depth levels, the voxel
`(0,0,1)` is occupied, the code stores channel value 249 (truncation of
`255 * (1 - (1/24)*0.5) = 249.6875`), while the claim's rounded-and-clamped
formula yields 250. -/
theorem C7_counterexample :
    structure_voxels wSampler 1 24 0 0 1 = true ∧
    structure_colors wSampler 1 24 0 0 1 = ⟨249, 249, 249⟩ ∧
    specRoundDarken (wSampler.resizedAt 1 0 0) (colorIntensity 24 1) =
      ⟨250, 250, 250⟩ ∧
    structure_colors wSampler 1 24 0 0 1 ≠
      specRoundDarken (wSampler.resizedAt 1 0 0) (colorIntensity 24 1) := by
  have hmd : maxDist wSampler 1 = 1 := by decide
  have hdm : depthMap wSampler 1 24 0 0 = 23 := by
    rw [depthMap, hmd, if_pos (by norm_num)]
    show (⌊wSampler.distAt 1 0 0 / 1 * ((24 - 1 : Nat) : ℚ)⌋).toNat = 23
    norm_num [wSampler]
    rfl
  have hocc : structure_voxels wSampler 1 24 0 0 1 = true := by
    simp [structure_voxels, hdm]
  have hcol : structure_colors wSampler 1 24 0 0 1 = ⟨249, 249, 249⟩ := by
    rw [structure_colors, if_pos ⟨Nat.one_pos, Nat.one_pos, by rw [hdm]; omega⟩,
      darken, colorIntensity]
    show (⟨(⌊((255 : Nat) : ℚ) * (1 - ((1 : Nat) : ℚ) / ((max 24 1 : Nat) : ℚ) * (1/2))⌋).toNat,
        (⌊((255 : Nat) : ℚ) * (1 - ((1 : Nat) : ℚ) / ((max 24 1 : Nat) : ℚ) * (1/2))⌋).toNat,
        (⌊((255 : Nat) : ℚ) * (1 - ((1 : Nat) : ℚ) / ((max 24 1 : Nat) : ℚ) * (1/2))⌋).toNat⟩ : RGB)
      = ⟨249, 249, 249⟩
    norm_num
    rfl
  have hspec : specRoundDarken (wSampler.resizedAt 1 0 0) (colorIntensity 24 1) =
      ⟨250, 250, 250⟩ := by
    rw [specRoundDarken, roundClamp255, colorIntensity]
    show (⟨min (round (((255 : Nat) : ℚ) *
          (1 - ((1 : Nat) : ℚ) / ((max 24 1 : Nat) : ℚ) * (1/2)))).toNat 255,
        min (round (((255 : Nat) : ℚ) *
          (1 - ((1 : Nat) : ℚ) / ((max 24 1 : Nat) : ℚ) * (1/2)))).toNat 255,
        min (round (((255 : Nat) : ℚ) *
          (1 - ((1 : Nat) : ℚ) / ((max 24 1 : Nat) : ℚ) * (1/2)))).toNat 255⟩ : RGB)
      = ⟨250, 250, 250⟩
    norm_num [round_eq]
    rfl
  refine ⟨hocc, hcol, hspec, ?_⟩
  rw [hcol, hspec]
  decide

/-- Claim C10 (implicit): under valid sampler data the per-pixel scalar
values driving the grid writes are in range — the height never exceeds H,
the hue layer never exceeds L-1 and the depth never exceeds D-1 — so every
occupied cell of each strategy lies inside the declared `(R,R,depth)`
shape. -/
theorem C10_writes_in_bounds (smp : Sampler) (Rn maxHeight layers depth_levels : Nat)
    (hval : smp.Valid Rn) :
    (∀ y, y < Rn → ∀ x, x < Rn →
      heightsMap smp Rn maxHeight y x ≤ maxHeight ∧
      hueLayerOf smp Rn layers y x ≤ layers - 1 ∧
      depthMap smp Rn depth_levels y x ≤ depth_levels - 1) ∧
    (∀ x y z, height_voxels smp Rn maxHeight x y z = true →
      x < Rn ∧ y < Rn ∧ z < maxHeight) ∧
    (0 < layers → ∀ x y z, color_voxels smp Rn layers x y z = true →
      x < Rn ∧ y < Rn ∧ z < layers) ∧
    (0 < depth_levels → ∀ x y z, structure_voxels smp Rn depth_levels x y z = true →
      x < Rn ∧ y < Rn ∧ z < depth_levels) := by
  refine ⟨?_, ?_, ?_, ?_⟩
  · intro y hy x hx
    exact ⟨heightsMap_le smp Rn maxHeight y x (hval y hy x hx).2.1,
      hueLayerOf_le smp Rn layers y x, depthMap_le smp Rn depth_levels hy hx⟩
  · intro x y z h
    obtain ⟨hx, hy, hz⟩ := of_decide_eq_true h
    exact ⟨hx, hy,
      lt_of_lt_of_le hz (heightsMap_le smp Rn maxHeight y x (hval y hy x hx).2.1)⟩
  · intro hL x y z h
    obtain ⟨hx, hy, -, hz⟩ := of_decide_eq_true h
    have := hueLayerOf_le smp Rn layers y x
    exact ⟨hx, hy, by omega⟩
  · intro hD x y z h
    obtain ⟨hx, hy, hz⟩ := of_decide_eq_true h
    have := depthMap_le smp Rn depth_levels hy hx
    exact ⟨hx, hy, by omega⟩

/-- Witness for C10 at the concrete sampler, resolution 2, H=8, L=16, D=24. -/
theorem C10_writes_in_bounds_witness :
    wSampler.Valid 2 ∧
      ((∀ y, y < 2 → ∀ x, x < 2 →
        heightsMap wSampler 2 8 y x ≤ 8 ∧
        hueLayerOf wSampler 2 16 y x ≤ 16 - 1 ∧
        depthMap wSampler 2 24 y x ≤ 24 - 1) ∧
      (∀ x y z, height_voxels wSampler 2 8 x y z = true →
        x < 2 ∧ y < 2 ∧ z < 8) ∧
      (0 < 16 → ∀ x y z, color_voxels wSampler 2 16 x y z = true →
        x < 2 ∧ y < 2 ∧ z < 16) ∧
      (0 < 24 → ∀ x y z, structure_voxels wSampler 2 24 x y z = true →
        x < 2 ∧ y < 2 ∧ z < 24)) :=
  ⟨by decide, C10_writes_in_bounds wSampler 2 8 16 24 (by decide)⟩

end ImageToVoxel
